import Mathlib

/-!
Shallow embedding of the sweep-window oscilloscope engine (`src/src/main.js`
and the earlier snapshot `src/unnamed/part_000`).

Times and raw amplitudes are modelled as exact rationals; sample indices,
channel indices and slot indices as naturals.  The JavaScript globals
(`windowStartSample`, `currentSample`, `sweepSampleCount`,
`samplesPerChannel`) become explicit state / parameters.
-/

namespace Oscilloscope

/-- Configuration constants of the script (`SAMPLES_PER_SECOND`,
`SWEEP_SPEED_FACTOR`, `SWEEP_DURATION`, `CHANNELS`, `FIRST_CHANNEL`,
`LAST_CHANNEL`, `AMPLITUDE_SCALE_FACTOR`). -/
structure SweepConfig where
  samplesPerSecond : ℚ
  sweepSpeedFactor : ℚ
  sweepDuration : ℚ
  channels : ℕ
  firstChannel : ℕ
  lastChannel : ℕ
  amplitudeScaleFactor : ℚ
deriving DecidableEq, Repr

/-- The constants of `src/src/main.js` (385 channels, subset 200..300). -/
def mainConfig : SweepConfig :=
  { samplesPerSecond := 30000
    sweepSpeedFactor := 1/50
    sweepDuration := 1/20
    channels := 385
    firstChannel := 200
    lastChannel := 300
    amplitudeScaleFactor := 15/10000000 }

/-- The constants of `src/unnamed/part_000` (369 channels, subset 100..300). -/
def part000Config : SweepConfig :=
  { samplesPerSecond := 30000
    sweepSpeedFactor := 1/50
    sweepDuration := 1/20
    channels := 369
    firstChannel := 100
    lastChannel := 300
    amplitudeScaleFactor := 1/200000 }

/-- `PLOT_CHANNELS = LAST_CHANNEL - FIRST_CHANNEL + 1`. -/
def plotChannels (cfg : SweepConfig) : ℕ :=
  cfg.lastChannel - cfg.firstChannel + 1

/-- `sweepSampleCount = Math.floor(SWEEP_DURATION * SAMPLES_PER_SECOND)`
(set in `main`). -/
def sweepSampleCountOf (cfg : SweepConfig) : ℕ :=
  ⌊cfg.sweepDuration * cfg.samplesPerSecond⌋₊

/-- The mutable sweep position: `windowStartSample` and `currentSample`.
`currentSample` is a JavaScript number, so it is modelled as a rational
(the code takes `Math.floor(currentSample)` before using it as an index). -/
structure SweepState where
  windowStartSample : ℕ
  currentSample : ℚ
deriving DecidableEq, Repr

/-- One iteration of the `while (samplesRemaining >= 1)` body of `animate`:
the slot `Math.floor(currentSample)` is written, `currentSample` is
incremented, and on reaching `sweepSampleCount` the lap happens
(`currentSample = 0; windowStartSample += sweepSampleCount;` and wrap to 0
when `windowStartSample + sweepSampleCount > samplesPerChannel`).
Returns the new state and the slot index written. -/
def sampleStep (count : ℕ) (spc : ℚ) (s : SweepState) : SweepState × ℕ :=
  let vertexIndex : ℕ := (⌊s.currentSample⌋).toNat
  let cur := s.currentSample + 1
  if (count : ℚ) ≤ cur then
    let ws := s.windowStartSample + count
    (⟨if spc < ((ws + count : ℕ) : ℚ) then 0 else ws, 0⟩, vertexIndex)
  else
    (⟨s.windowStartSample, cur⟩, vertexIndex)

/-- The `while (samplesRemaining >= 1)` loop of `animate`: repeatedly
consume one whole sample via `sampleStep` while at least one whole sample
remains.  Returns the final state and the list of slot indices written,
in order. -/
def advanceLoop (count : ℕ) (spc : ℚ) (s : SweepState) (rem : ℚ) :
    SweepState × List ℕ :=
  if h : 1 ≤ rem then
    let p := sampleStep count spc s
    let next := advanceLoop count spc p.1 (rem - 1)
    (next.1, p.2 :: next.2)
  else
    (s, [])
termination_by ⌊rem⌋₊
decreasing_by
  have h1 : 1 ≤ ⌊rem⌋₊ := Nat.le_floor (by exact_mod_cast h)
  have h2 : ⌊rem - 1⌋₊ = ⌊rem⌋₊ - 1 := Nat.floor_sub_one rem
  omega

/-- `samplesToAdvance = SAMPLES_PER_SECOND * dt * SWEEP_SPEED_FACTOR`. -/
def samplesToAdvance (cfg : SweepConfig) (dt : ℚ) : ℚ :=
  cfg.samplesPerSecond * dt * cfg.sweepSpeedFactor

/-- One call of the sweep-advance part of `animate`, given the elapsed
time `dt` (seconds) of this frame. -/
def animateTick (cfg : SweepConfig) (count : ℕ) (spc : ℚ) (s : SweepState)
    (dt : ℚ) : SweepState × List ℕ :=
  advanceLoop count spc s (samplesToAdvance cfg dt)

/-- A sequence of animation frames with given per-frame elapsed times;
returns the final state and the total number of slots written (= whole
samples consumed). -/
def runTicks (cfg : SweepConfig) (count : ℕ) (spc : ℚ) :
    SweepState → List ℚ → SweepState × ℕ
  | s, [] => (s, 0)
  | s, dt :: rest =>
    let r := animateTick cfg count spc s dt
    let r2 := runTicks cfg count spc r.1 rest
    (r2.1, r.2.length + r2.2)

/-- The loop consumes exactly `⌊rem⌋₊` whole samples: one slot is written
per whole sample, and a remainder below one writes nothing. -/
theorem advanceLoop_length (count : ℕ) (spc : ℚ) :
    ∀ (n : ℕ) (s : SweepState) (rem : ℚ), ⌊rem⌋₊ = n →
      (advanceLoop count spc s rem).2.length = n := by
  intro n
  induction n with
  | zero =>
    intro s rem h
    rw [advanceLoop]
    rw [dif_neg]
    · rfl
    · intro h1
      have := Nat.le_floor (α := ℚ) (n := 1) (by exact_mod_cast h1)
      omega
  | succ n ih =>
    intro s rem h
    have h1 : 1 ≤ rem := by
      by_contra hc
      rw [Nat.floor_eq_zero.mpr (by linarith [not_le.mp hc])] at h
      omega
    rw [advanceLoop, dif_pos h1]
    simp only [List.length_cons]
    have h2 : ⌊rem - 1⌋₊ = n := by
      rw [Nat.floor_sub_one rem, h]
      omega
    rw [ih _ _ h2]

/-- A remainder below one whole sample runs the loop body zero times. -/
theorem advanceLoop_of_lt_one (count : ℕ) (spc : ℚ) (s : SweepState) (rem : ℚ)
    (h : rem < 1) : advanceLoop count spc s rem = (s, []) := by
  rw [advanceLoop, dif_neg (not_le.mpr h)]

/-- `sampleStep` at an integral cursor `j` that triggers the lap. -/
theorem sampleStep_lap (count : ℕ) (spc : ℚ) (w j : ℕ) (h : count ≤ j + 1) :
    sampleStep count spc ⟨w, (j : ℚ)⟩ =
      (⟨if spc < ((w + count + count : ℕ) : ℚ) then 0 else w + count, 0⟩, j) := by
  have hc : (count : ℚ) ≤ (j : ℚ) + 1 := by exact_mod_cast h
  simp [sampleStep, hc]

/-- `sampleStep` at an integral cursor `j` that does not trigger the lap. -/
theorem sampleStep_noLap (count : ℕ) (spc : ℚ) (w j : ℕ) (h : j + 1 < count) :
    sampleStep count spc ⟨w, (j : ℚ)⟩ = (⟨w, ((j + 1 : ℕ) : ℚ)⟩, j) := by
  have hc : ¬ ((count : ℚ) ≤ (j : ℚ) + 1) := by
    rw [not_le]
    exact_mod_cast h
  simp [sampleStep, hc]

/-- Advancing by exactly `k` whole samples from integral cursor `j` with
`j + k = count` writes slots `j, j+1, ..., count-1` in order and ends in
the lap state. -/
theorem advanceLoop_range' (count : ℕ) (spc : ℚ) (w : ℕ) :
    ∀ (k j : ℕ), j + k = count → 1 ≤ k →
      advanceLoop count spc ⟨w, (j : ℚ)⟩ (k : ℚ) =
        (⟨if spc < ((w + count + count : ℕ) : ℚ) then 0 else w + count, 0⟩,
         List.range' j k) := by
  intro k
  induction k with
  | zero => intro j _ hk; omega
  | succ k ih =>
    intro j h _
    rw [advanceLoop, dif_pos (by exact_mod_cast Nat.succ_le_succ (Nat.zero_le k))]
    cases k with
    | zero =>
      have hstep := sampleStep_lap count spc w j (by omega)
      simp only [hstep]
      rw [show ((0 + 1 : ℕ) : ℚ) - 1 = 0 by norm_num,
        advanceLoop_of_lt_one count spc _ 0 (by norm_num)]
      simp [List.range'_succ]
    | succ k' =>
      have hstep := sampleStep_noLap count spc w j (by omega)
      have hrem : ((k' + 1 + 1 : ℕ) : ℚ) - 1 = ((k' + 1 : ℕ) : ℚ) := by
        push_cast; ring
      have ihj := ih (j + 1) (by omega) (by omega)
      simp only [hstep, hrem, ihj]
      simp [List.range'_succ]

/-- C1: when the cursor reaches `sweepSampleCount`, the advance step resets
the cursor to 0 and moves `windowStartSample` forward by exactly
`sweepSampleCount`; and when the new `windowStartSample + sweepSampleCount`
would exceed `samplesPerChannel`, `windowStartSample` is set to 0 instead
(neither clamped nor stopped). -/
theorem lap_wrap_transition (count : ℕ) (spc : ℚ) (s : SweepState)
    (h : (count : ℚ) ≤ s.currentSample + 1) :
    (sampleStep count spc s).1 =
      ⟨if spc < ((s.windowStartSample + count + count : ℕ) : ℚ) then 0
        else s.windowStartSample + count, 0⟩ := by
  simp [sampleStep, h]

/-- Witness for C1: with `samplesPerChannel = 100`, `length = 30` and
`windowStart = 90`, the lap yields `windowStart = 0` (not 70). -/
theorem lap_wrap_transition_witness :
    ((30 : ℕ) : ℚ) ≤ (⟨90, 29⟩ : SweepState).currentSample + 1 ∧
      (sampleStep 30 100 ⟨90, 29⟩).1 = ⟨0, 0⟩ := by
  refine ⟨by norm_num, ?_⟩
  rw [lap_wrap_transition 30 100 ⟨90, 29⟩ (by norm_num)]
  norm_num

/-- C5: starting from a lap boundary (`cursor = 0`), advancing by exactly
`length` whole samples writes every slot `0..length-1` exactly once (in
order) and brings the cursor back to 0; an accumulated advance below one
sample writes no slot, and in every frame exactly one slot is written per
whole sample consumed. -/
theorem exact_lap_coverage (count : ℕ) (spc : ℚ) (w : ℕ) :
    (advanceLoop count spc ⟨w, 0⟩ (count : ℚ)).2 = List.range count ∧
    (advanceLoop count spc ⟨w, 0⟩ (count : ℚ)).1.currentSample = 0 ∧
    (∀ (s : SweepState) (rem : ℚ), rem < 1 →
      advanceLoop count spc s rem = (s, [])) ∧
    (∀ (s : SweepState) (rem : ℚ),
      (advanceLoop count spc s rem).2.length = ⌊rem⌋₊) := by
  have hmain : (advanceLoop count spc ⟨w, 0⟩ (count : ℚ)).2 = List.range count ∧
      (advanceLoop count spc ⟨w, 0⟩ (count : ℚ)).1.currentSample = 0 := by
    rcases Nat.eq_zero_or_pos count with hc | hc
    · subst hc
      simp only [Nat.cast_zero]
      rw [advanceLoop_of_lt_one 0 spc ⟨w, 0⟩ 0 (by norm_num)]
      simp
    · have h := advanceLoop_range' count spc w count 0 (by omega) hc
      norm_num at h
      rw [h]
      constructor
      · exact (List.range_eq_range' count).symm
      · split <;> rfl
  exact ⟨hmain.1, hmain.2,
    fun s rem hr => advanceLoop_of_lt_one count spc s rem hr,
    fun s rem => advanceLoop_length count spc _ s rem rfl⟩

/-- C2 counterexample: two frames each advancing 0.6 samples consume 0
whole samples in the code (the sub-1 remainder is a local variable,
discarded at frame end), while the claimed running-sum accumulator would
have consumed `⌊1.2⌋ = 1`. -/
theorem fractional_carry_counterexample :
    ¬ ((runTicks mainConfig 1500 7500 ⟨0, 0⟩ [1/1000, 1/1000]).2 =
        ⌊(([1/1000, 1/1000] : List ℚ).map
            (fun dt => samplesToAdvance mainConfig dt)).sum⌋₊) := by
  have h1 : samplesToAdvance mainConfig (1/1000) = 3/5 := by
    norm_num [samplesToAdvance, mainConfig]
  have hadv : advanceLoop 1500 7500 ⟨0, 0⟩ (samplesToAdvance mainConfig (1/1000)) =
      (⟨0, 0⟩, []) := by
    rw [h1]
    exact advanceLoop_of_lt_one _ _ _ _ (by norm_num)
  have hrun : (runTicks mainConfig 1500 7500 ⟨0, 0⟩ [1/1000, 1/1000]).2 = 0 := by
    simp only [runTicks, animateTick, hadv]
    simp
  have hsum : (([1/1000, 1/1000] : List ℚ).map
      (fun dt => samplesToAdvance mainConfig dt)).sum = 6/5 := by
    simp only [List.map_cons, List.map_nil, List.sum_cons, List.sum_nil, h1]
    norm_num
  rw [hrun, hsum]
  have hfloor : ⌊(6/5 : ℚ)⌋₊ = 1 := by
    rw [Nat.floor_eq_iff (by norm_num)]
    norm_num
  rw [hfloor]
  norm_num

/-- C2 amended: the whole samples consumed over a sequence of frames equal
the sum of the per-frame floors `⌊samplingRate * dt * speedFactor⌋`; each
frame's sub-1 fractional remainder is discarded when the frame ends, not
carried into the next frame. -/
theorem fractional_remainder_discarded (cfg : SweepConfig) (count : ℕ)
    (spc : ℚ) : ∀ (dts : List ℚ) (s : SweepState),
    (runTicks cfg count spc s dts).2 =
      (dts.map (fun dt => ⌊samplesToAdvance cfg dt⌋₊)).sum := by
  intro dts
  induction dts with
  | nil => intro s; simp [runTicks]
  | cons dt rest ih =>
    intro s
    simp only [runTicks, animateTick, List.map_cons, List.sum_cons]
    rw [advanceLoop_length count spc ⌊samplesToAdvance cfg dt⌋₊ s
      (samplesToAdvance cfg dt) rfl, ih]

/-- `loadData`: the fetched buffer becomes `dataArray`,
`totalSamples = dataArray.length`, and
`samplesPerChannel = totalSamples / CHANNELS` — ordinary (real) division,
with no length validation and no error signalling.  A rejected fetch
propagates as the error case of the surrounding `async` function. -/
def loadData (raw : Except String (List ℤ)) (channels : ℕ) :
    Except String (List ℤ × ℚ) := do
  let d ← raw
  pure (d, (d.length : ℚ) / (channels : ℚ))

/-- The four arrays fetched by `loadSpikeData`: `spikeTimes`,
`spikeChannels`, `spikeClusters` and `sampleTimes`. -/
structure SpikeBundle where
  spikeTimes : List ℚ
  spikeChannels : List ℕ
  spikeClusters : List ℕ
  sampleTimes : List ℚ
deriving DecidableEq, Repr

/-- `loadSpikeData`: the four fetches happen sequentially; any rejection
propagates. -/
def loadSpikeData (rt : Except String (List ℚ)) (rc : Except String (List ℕ))
    (rk : Except String (List ℕ)) (rs : Except String (List ℚ)) :
    Except String SpikeBundle := do
  let t ← rt
  let c ← rc
  let k ← rk
  let s ← rs
  pure ⟨t, c, k, s⟩

/-- The state reached by a successful `main`: data loaded, spike data
loaded when `showSpikes`, `sweepSampleCount` computed, and the animation
loop entered (`animate(0)` has been called, so `ticking = true`). -/
structure EngineStart where
  dataArray : List ℤ
  samplesPerChannel : ℚ
  spikes : Option SpikeBundle
  sweepSampleCount : ℕ
  ticking : Bool
deriving DecidableEq, Repr

/-- `main`: `await loadData()`, then (when `showSpikes`)
`await loadSpikeData()`, then compute `sweepSampleCount` and call
`animate(0)`.  An exception from either load aborts `main` before the tick
loop starts. -/
def mainStartup (cfg : SweepConfig) (showSpikes : Bool)
    (raw : Except String (List ℤ)) (rt : Except String (List ℚ))
    (rc : Except String (List ℕ)) (rk : Except String (List ℕ))
    (rs : Except String (List ℚ)) : Except String EngineStart := do
  let d ← loadData raw cfg.channels
  let sp ← if showSpikes then do
      let b ← loadSpikeData rt rc rk rs
      pure (some b)
    else pure (none : Option SpikeBundle)
  pure ⟨d.1, d.2, sp, sweepSampleCountOf cfg, true⟩

/-- C3 counterexample: a buffer whose length (here 1) is not a multiple of
the 385-channel count loads with no error and leaves
`samplesPerChannel = 1/385` — not an integer, not the truncated value
`1 / 385 = 0`, and not rejected. -/
theorem load_nonintegral_counterexample :
    loadData (Except.ok [(0 : ℤ)]) 385 =
      Except.ok ([(0 : ℤ)], (1 : ℚ) / 385) ∧
    (¬ ∃ n : ℤ, ((1 : ℚ) / 385) = (n : ℚ)) ∧
    ((1 : ℚ) / 385) ≠ ((1 / 385 : ℕ) : ℚ) := by
  refine ⟨rfl, ?_, by norm_num⟩
  rintro ⟨n, hn⟩
  have h385 : ((385 : ℚ)) ≠ 0 := by norm_num
  rw [div_eq_iff h385] at hn
  have : (1 : ℤ) = n * 385 := by exact_mod_cast hn
  omega

/-- C3 amended: `loadData` neither rejects nor truncates nor signals: it
always sets `samplesPerChannel` to the exact rational quotient
`length / channels` (so multiplying back by `channels` recovers the
length), silently carrying a non-integral value whenever `channels` does
not divide the length. -/
theorem load_exact_division (d : List ℤ) (channels : ℕ)
    (h : (channels : ℚ) ≠ 0) :
    loadData (Except.ok d) channels =
      Except.ok (d, (d.length : ℚ) / (channels : ℚ)) ∧
    ((d.length : ℚ) / (channels : ℚ)) * (channels : ℚ) = (d.length : ℚ) := by
  refine ⟨rfl, ?_⟩
  field_simp

/-- Witness for the amended C3 at a concrete non-multiple length. -/
theorem load_exact_division_witness :
    ((385 : ℕ) : ℚ) ≠ 0 ∧
      loadData (Except.ok [(0 : ℤ)]) 385 =
        Except.ok ([(0 : ℤ)], (([(0 : ℤ)] : List ℤ).length : ℚ) / ((385 : ℕ) : ℚ)) := by
  refine ⟨by norm_num, ?_⟩
  exact (load_exact_division [(0 : ℤ)] 385 (by norm_num)).1

/-- C9: the tick loop starts only after the raw sample load (and, with
the overlay enabled, all three event arrays and the sample-time table)
has fully completed; every load failure aborts startup with the error,
so the engine never begins ticking with no data. -/
theorem startup_load_ordering (cfg : SweepConfig) :
    (∀ (e : String) (ss : Bool) rt rc rk rs,
      mainStartup cfg ss (Except.error e) rt rc rk rs = Except.error e) ∧
    (∀ (e : String) d rc rk rs,
      mainStartup cfg true (Except.ok d) (Except.error e) rc rk rs =
        Except.error e) ∧
    (∀ (e : String) d t rk rs,
      mainStartup cfg true (Except.ok d) (Except.ok t) (Except.error e) rk rs =
        Except.error e) ∧
    (∀ (e : String) d t c rs,
      mainStartup cfg true (Except.ok d) (Except.ok t) (Except.ok c)
        (Except.error e) rs = Except.error e) ∧
    (∀ (e : String) d t c k,
      mainStartup cfg true (Except.ok d) (Except.ok t) (Except.ok c)
        (Except.ok k) (Except.error e) = Except.error e) ∧
    (∀ d rt rc rk rs,
      mainStartup cfg false (Except.ok d) rt rc rk rs =
        Except.ok ⟨d, (d.length : ℚ) / (cfg.channels : ℚ), none,
          sweepSampleCountOf cfg, true⟩) ∧
    (∀ d t c k s,
      mainStartup cfg true (Except.ok d) (Except.ok t) (Except.ok c)
        (Except.ok k) (Except.ok s) =
        Except.ok ⟨d, (d.length : ℚ) / (cfg.channels : ℚ), some ⟨t, c, k, s⟩,
          sweepSampleCountOf cfg, true⟩) := by
  refine ⟨fun e ss rt rc rk rs => ?_, fun e d rc rk rs => rfl,
    fun e d t rk rs => rfl, fun e d t c rs => rfl, fun e d t c k => rfl,
    fun d rt rc rk rs => rfl, fun d t c k s => rfl⟩
  cases ss <;> rfl

/-- `let lastTime = 0` — the module-scope (construction-time) seed of the
last-call timestamp. -/
def lastTimeInit : ℚ := 0

/-- The timing prefix of `animate`:
`dt = (timestamp - lastTime) / 1000; lastTime = timestamp`.
Returns `(dt, new lastTime)`; `timestamp` is the wall-clock time in
milliseconds since the program's time origin. -/
def animateClock (lastTime timestamp : ℚ) : ℚ × ℚ :=
  ((timestamp - lastTime) / 1000, timestamp)

/-- `main` ends with the direct call `animate(0)`: the value `lastTime`
holds when the first browser-scheduled frame later runs. -/
def lastTimeAfterMainCall : ℚ := (animateClock lastTimeInit 0).2

/-- C6 counterexample: suppose loading finished and `main` called
`animate(0)` at wall-clock time 50000 ms after the time origin, and the
first browser-scheduled frame arrives at timestamp 50016 ms.  The claim
says the computed elapsed time reflects only time since the first-tick
seeding, i.e. `(50016 - 50000)/1000` seconds; the code computes
`50016/1000` seconds — the full time since program start — and the
resulting advance exceeds a whole sweep (`sweepSampleCount = 1500`)
twenty-fold. -/
theorem first_tick_seeding_counterexample :
    (animateClock lastTimeAfterMainCall 50016).1 = 50016 / 1000 ∧
    (animateClock lastTimeAfterMainCall 50016).1 ≠ (50016 - 50000) / 1000 ∧
    ((sweepSampleCountOf mainConfig : ℚ) <
      samplesToAdvance mainConfig (animateClock lastTimeAfterMainCall 50016).1) := by
  have hc : sweepSampleCountOf mainConfig = 1500 := by
    unfold sweepSampleCountOf mainConfig
    rw [show ((1 : ℚ)/20 * 30000) = ((1500 : ℕ) : ℚ) by norm_num]
    exact Nat.floor_natCast 1500
  rw [hc]
  refine ⟨?_, ?_, ?_⟩ <;>
    norm_num [animateClock, lastTimeAfterMainCall, lastTimeInit,
      samplesToAdvance, mainConfig]

/-- C6 amended: `lastTime` is seeded to 0 at construction and `main`'s
direct `animate(0)` call leaves it 0, so the very first invocation
computes elapsed 0; but the first browser-scheduled tick computes elapsed
`timestamp/1000` — the full wall-clock time since the program's time
origin, including all data-loading time — rather than the time since the
seeding call, so a spurious large advance occurs whenever loading takes
long. -/
theorem first_tick_elapsed_is_time_origin (t : ℚ) :
    (animateClock lastTimeInit 0).1 = 0 ∧
    lastTimeAfterMainCall = 0 ∧
    (animateClock lastTimeAfterMainCall t).1 = t / 1000 := by
  norm_num [animateClock, lastTimeAfterMainCall, lastTimeInit]

/-- One entry of `lineMeshes`:
`{ mesh, actualChannel, yOffset, amplitudeScale }` (the mesh itself is
presentation and is not modelled). -/
structure LineMesh where
  actualChannel : ℕ
  yOffset : ℚ
  amplitudeScale : ℚ
deriving DecidableEq, Repr, Inhabited

/-- `verticalSpacing = viewHeight / (PLOT_CHANNELS - 1)` (used both for
the trace baselines and for the spike overlay's vertical placement). -/
def verticalSpacing (cfg : SweepConfig) (viewHeight : ℚ) : ℚ :=
  viewHeight / ((plotChannels cfg : ℚ) - 1)

/-- `createPersistentLines`: for `i = 0 .. PLOT_CHANNELS-1`, channel
`FIRST_CHANNEL + i` gets baseline `yOffset = i * verticalSpacing` and
`amplitudeScale = AMPLITUDE_SCALE_FACTOR * viewHeight`. -/
def createPersistentLines (cfg : SweepConfig) (viewHeight : ℚ) :
    List LineMesh :=
  (List.range (plotChannels cfg)).map fun i =>
    ⟨cfg.firstChannel + i, (i : ℚ) * verticalSpacing cfg viewHeight,
      cfg.amplitudeScaleFactor * viewHeight⟩

/-- The y-value `animate` writes at the cursor's vertex for one channel:
`dataIndex = (windowStartSample + vertexIndex) * CHANNELS + actualChannel`
and `positions[...] = yOffset + dataArray[dataIndex] * amplitudeScale`. -/
def animateWriteValue (cfg : SweepConfig) (dataArray : List ℚ)
    (windowStart vertexIndex : ℕ) (obj : LineMesh) : ℚ :=
  obj.yOffset +
    dataArray.getD ((windowStart + vertexIndex) * cfg.channels + obj.actualChannel) 0 *
      obj.amplitudeScale

/-- Each `lineMeshes` entry in `createPersistentLines`'s output, by
index. -/
theorem createPersistentLines_getD (cfg : SweepConfig) (H : ℚ) (i : ℕ)
    (hi : i < plotChannels cfg) :
    (createPersistentLines cfg H).getD i default =
      ⟨cfg.firstChannel + i, (i : ℚ) * verticalSpacing cfg H,
        cfg.amplitudeScaleFactor * H⟩ := by
  unfold createPersistentLines
  rw [List.getD_eq_getElem?_getD, List.getElem?_eq_getElem (by simpa using hi)]
  simp

/-- C7: the first displayed channel's baseline is 0, the last displayed
channel's baseline is the view extent `H`, intermediate baselines are
`i * H / (plotChannels - 1)`; and the value written for a channel is
`baseline + rawSample * amplitudeScale` with
`amplitudeScale = AMPLITUDE_SCALE_FACTOR * H`. -/
theorem amplitude_mapping (cfg : SweepConfig) (H : ℚ)
    (h : cfg.firstChannel < cfg.lastChannel) :
    (∀ i, i < plotChannels cfg →
      ((createPersistentLines cfg H).getD i default).yOffset =
        (i : ℚ) * H / ((plotChannels cfg : ℚ) - 1)) ∧
    ((createPersistentLines cfg H).getD 0 default).yOffset = 0 ∧
    ((createPersistentLines cfg H).getD (plotChannels cfg - 1) default).yOffset
      = H ∧
    (∀ obj, obj ∈ createPersistentLines cfg H → ∀ dataArray ws vi,
      animateWriteValue cfg dataArray ws vi obj =
        obj.yOffset +
          dataArray.getD ((ws + vi) * cfg.channels + obj.actualChannel) 0 *
            (cfg.amplitudeScaleFactor * H)) := by
  have hp : 2 ≤ plotChannels cfg := by
    unfold plotChannels
    omega
  have hcast : ((plotChannels cfg - 1 : ℕ) : ℚ) = (plotChannels cfg : ℚ) - 1 := by
    have h1 : 1 ≤ plotChannels cfg := by omega
    push_cast [h1]
    ring
  have hne : ((plotChannels cfg : ℚ) - 1) ≠ 0 := by
    have h2 : (2 : ℚ) ≤ (plotChannels cfg : ℚ) := by exact_mod_cast hp
    intro hz
    rw [sub_eq_zero] at hz
    rw [hz] at h2
    norm_num at h2
  refine ⟨fun i hi => ?_, ?_, ?_, fun obj hobj dataArray ws vi => ?_⟩
  · rw [createPersistentLines_getD cfg H i hi]
    unfold verticalSpacing
    rw [mul_div_assoc]
  · rw [createPersistentLines_getD cfg H 0 (by omega)]
    simp
  · rw [createPersistentLines_getD cfg H (plotChannels cfg - 1) (by omega)]
    show ((plotChannels cfg - 1 : ℕ) : ℚ) * verticalSpacing cfg H = H
    unfold verticalSpacing
    rw [hcast, mul_comm, div_mul_cancel₀ H hne]
  · obtain ⟨j, hj, rfl⟩ := List.mem_map.mp hobj
    rfl

/-- Witness for C7 at the `part_000` configuration (`{100..300}`) and a
concrete extent `H = 1000`: channel 300's baseline is exactly `H`. -/
theorem amplitude_mapping_witness :
    part000Config.firstChannel < part000Config.lastChannel ∧
      ((createPersistentLines part000Config 1000).getD
        (plotChannels part000Config - 1) default).yOffset = 1000 := by
  refine ⟨by norm_num [part000Config], ?_⟩
  exact (amplitude_mapping part000Config 1000 (by norm_num [part000Config])).2.2.1

/-- The horizontal projection in `updateSpikeOverlay`:
`fraction = (spikeTime - startTime) / SWEEP_DURATION;`
`if (fraction < 0) fraction += 1.0`. -/
def spikeFraction (sweepDuration startTime spikeTime : ℚ) : ℚ :=
  let fraction := (spikeTime - startTime) / sweepDuration
  if fraction < 0 then fraction + 1 else fraction

/-- One spike tick accepted for rendering, recorded by its centre
`(spikeX, spikeY)` (the code pushes a two-triangle quad of constant pixel
size centred there — presentation geometry). -/
structure SpikeTick where
  x : ℚ
  y : ℚ
deriving DecidableEq, Repr

/-- The per-spike body of the loop in `updateSpikeOverlay`: skip the spike
when `spikeTime < overwriteTime || spikeTime > endTime`, when
`spikeTime > currentTime`, or when the channel lies outside
`[FIRST_CHANNEL, LAST_CHANNEL]`; otherwise emit the tick at
`x = fraction * viewWidth`,
`y = (spikeCh - FIRST_CHANNEL) * verticalSpacing`. -/
def renderSpike (cfg : SweepConfig) (viewWidth viewHeight : ℚ)
    (overwriteTime endTime currentTime startTime : ℚ)
    (spikeTime : ℚ) (spikeCh : ℕ) : Option SpikeTick :=
  if spikeTime < overwriteTime ∨ endTime < spikeTime then none
  else if currentTime < spikeTime then none
  else
    let fraction := spikeFraction cfg.sweepDuration startTime spikeTime
    let spikeX := fraction * viewWidth
    if spikeCh < cfg.firstChannel ∨ cfg.lastChannel < spikeCh then none
    else
      some ⟨spikeX,
        ((spikeCh - cfg.firstChannel : ℕ) : ℚ) * verticalSpacing cfg viewHeight⟩

/-- `updateSpikeOverlay`: return immediately (leaving the overlay's
previous geometry) unless
`sampleTimes.length >= windowStartSample + sweepSampleCount`; otherwise
read `currentTime`, `startTime`, `endTime`, set
`overwriteTime = currentTime - SWEEP_DURATION`, and rebuild the tick list
from every spike via the per-spike loop body. -/
def updateSpikeOverlay (cfg : SweepConfig) (viewWidth viewHeight : ℚ)
    (count windowStart cursor : ℕ) (sampleTimes : List ℚ)
    (spikeTimes : List ℚ) (spikeChannels : List ℕ)
    (prev : List SpikeTick) : List SpikeTick :=
  if sampleTimes.length < windowStart + count then prev
  else
    let currentTime := sampleTimes.getD (windowStart + cursor) 0
    let startTime := sampleTimes.getD windowStart 0
    let endTime := sampleTimes.getD (windowStart + count - 1) 0
    let overwriteTime := currentTime - cfg.sweepDuration
    (List.range spikeTimes.length).filterMap fun i =>
      renderSpike cfg viewWidth viewHeight overwriteTime endTime currentTime
        startTime (spikeTimes.getD i 0) (spikeChannels.getD i 0)

/-- In a monotonically non-decreasing sample-time table, entries at
earlier in-bounds indices are no larger. -/
theorem getD_mono_of_sorted (l : List ℚ) (hmono : l.Sorted (· ≤ ·))
    (i j : ℕ) (hij : i ≤ j) (hj : j < l.length) :
    l.getD i 0 ≤ l.getD j 0 := by
  have hi : i < l.length := lt_of_le_of_lt hij hj
  rw [List.getD_eq_getElem?_getD, List.getElem?_eq_getElem hi,
    List.getD_eq_getElem?_getD, List.getElem?_eq_getElem hj]
  simpa using hmono.rel_get_of_le (a := ⟨i, hi⟩) (b := ⟨j, hj⟩)
    (Fin.mk_le_mk.mpr hij)

/-- The loop body renders a spike exactly when none of its three skip
conditions fires. -/
theorem renderSpike_isSome_iff (cfg : SweepConfig) (vw vh : ℚ)
    (ow et ct st t : ℚ) (ch : ℕ) :
    (renderSpike cfg vw vh ow et ct st t ch).isSome ↔
      (¬ (t < ow ∨ et < t) ∧ ¬ (ct < t) ∧
        ¬ (ch < cfg.firstChannel ∨ cfg.lastChannel < ch)) := by
  unfold renderSpike
  split_ifs with h1 h2 h3 <;> simp_all

/-- C4: with a monotone sample-time table, a passing length guard and the
cursor inside the window, the overlay is rebuilt from the per-spike loop
body, and a spike is rendered iff its channel lies in
`[FIRST_CHANNEL, LAST_CHANNEL]` and its time lies in
`[currentTime - SWEEP_DURATION, currentTime]`; an event any `ε > 0` past
`currentTime` is never rendered, and an out-of-range channel is skipped
by the bounds check (the body yields `none`, touching no channel slot). -/
theorem event_visibility (cfg : SweepConfig) (vw vh : ℚ)
    (count windowStart cursor : ℕ) (sampleTimes spikeTimes : List ℚ)
    (spikeChannels : List ℕ) (prev : List SpikeTick)
    (hmono : sampleTimes.Sorted (· ≤ ·))
    (hcursor : cursor < count)
    (hguard : windowStart + count ≤ sampleTimes.length) :
    (updateSpikeOverlay cfg vw vh count windowStart cursor sampleTimes
        spikeTimes spikeChannels prev =
      (List.range spikeTimes.length).filterMap fun i =>
        renderSpike cfg vw vh
          (sampleTimes.getD (windowStart + cursor) 0 - cfg.sweepDuration)
          (sampleTimes.getD (windowStart + count - 1) 0)
          (sampleTimes.getD (windowStart + cursor) 0)
          (sampleTimes.getD windowStart 0)
          (spikeTimes.getD i 0) (spikeChannels.getD i 0)) ∧
    (∀ (t : ℚ) (ch : ℕ),
      (renderSpike cfg vw vh
          (sampleTimes.getD (windowStart + cursor) 0 - cfg.sweepDuration)
          (sampleTimes.getD (windowStart + count - 1) 0)
          (sampleTimes.getD (windowStart + cursor) 0)
          (sampleTimes.getD windowStart 0) t ch).isSome ↔
        (cfg.firstChannel ≤ ch ∧ ch ≤ cfg.lastChannel ∧
          sampleTimes.getD (windowStart + cursor) 0 - cfg.sweepDuration ≤ t ∧
          t ≤ sampleTimes.getD (windowStart + cursor) 0)) ∧
    (∀ (ε : ℚ), 0 < ε → ∀ (ch : ℕ),
      renderSpike cfg vw vh
          (sampleTimes.getD (windowStart + cursor) 0 - cfg.sweepDuration)
          (sampleTimes.getD (windowStart + count - 1) 0)
          (sampleTimes.getD (windowStart + cursor) 0)
          (sampleTimes.getD windowStart 0)
          (sampleTimes.getD (windowStart + cursor) 0 + ε) ch = none) := by
  have hctle : sampleTimes.getD (windowStart + cursor) 0 ≤
      sampleTimes.getD (windowStart + count - 1) 0 :=
    getD_mono_of_sorted sampleTimes hmono _ _ (by omega) (by omega)
  refine ⟨?_, ?_, ?_⟩
  · unfold updateSpikeOverlay
    rw [if_neg (by omega)]
  · intro t ch
    rw [renderSpike_isSome_iff]
    constructor
    · rintro ⟨hA, hB, hC⟩
      push_neg at hA hB hC
      exact ⟨hC.1, hC.2, hA.1, hB⟩
    · rintro ⟨hc1, hc2, ht1, ht2⟩
      refine ⟨?_, not_lt.mpr ht2, ?_⟩
      · push_neg
        exact ⟨ht1, le_trans ht2 hctle⟩
      · push_neg
        exact ⟨hc1, hc2⟩
  · intro ε hε ch
    simp only [renderSpike]
    split_ifs with h1 h2 h3 <;> first | rfl | (exfalso; exact h2 (by linarith))

/-- Witness for C4: a concrete monotone 3-entry table, `count = 2`,
`cursor = 1`; an event 1 second past `currentTime` is not rendered. -/
theorem event_visibility_witness :
    ([0, 1/100, 2/100] : List ℚ).Sorted (· ≤ ·) ∧ (1 : ℕ) < 2 ∧
      0 + 2 ≤ ([0, 1/100, 2/100] : List ℚ).length ∧
      renderSpike mainConfig 800 600
        (([0, 1/100, 2/100] : List ℚ).getD (0 + 1) 0 - mainConfig.sweepDuration)
        (([0, 1/100, 2/100] : List ℚ).getD (0 + 2 - 1) 0)
        (([0, 1/100, 2/100] : List ℚ).getD (0 + 1) 0)
        (([0, 1/100, 2/100] : List ℚ).getD 0 0)
        (([0, 1/100, 2/100] : List ℚ).getD (0 + 1) 0 + 1) 250 = none := by
  have hs : ([0, 1/100, 2/100] : List ℚ).Sorted (· ≤ ·) := by
    simp [List.sorted_cons]
    norm_num
  refine ⟨hs, by norm_num, by norm_num, ?_⟩
  exact (event_visibility mainConfig 800 600 2 0 1 [0, 1/100, 2/100] [] [] []
    hs (by norm_num) (by norm_num)).2.2 1 (by norm_num) 250

/-- C8: the horizontal fraction is `(e - startTime) / sweepDuration` with
`1.0` added exactly when that quotient is negative; with
`startTime = 10.0`, `sweepDuration = 0.05` and `e = 9.98` the fraction is
`0.6`. -/
theorem event_horizontal_wrap :
    (∀ (dur start e : ℚ),
      spikeFraction dur start e =
        (e - start) / dur + (if (e - start) / dur < 0 then 1 else 0)) ∧
    spikeFraction (1/20) 10 (499/50) = 3/5 := by
  constructor
  · intro dur start e
    unfold spikeFraction
    split_ifs with h <;> simp [h]
  · unfold spikeFraction
    norm_num

/-- C10: when the sample-time table holds fewer than
`windowStartSample + sweepSampleCount` entries, `updateSpikeOverlay`
returns before reading any table or event entry, leaving the overlay
geometry exactly as the previous frame built it. -/
theorem overlay_guard_returns_prev (cfg : SweepConfig) (vw vh : ℚ)
    (count windowStart cursor : ℕ) (sampleTimes spikeTimes : List ℚ)
    (spikeChannels : List ℕ) (prev : List SpikeTick)
    (h : sampleTimes.length < windowStart + count) :
    updateSpikeOverlay cfg vw vh count windowStart cursor sampleTimes
      spikeTimes spikeChannels prev = prev := by
  unfold updateSpikeOverlay
  rw [if_pos h]

/-- Witness for C10: an empty table with a 1500-sample sweep leaves a
nonempty previous overlay untouched. -/
theorem overlay_guard_returns_prev_witness :
    ([] : List ℚ).length < 0 + 1500 ∧
      updateSpikeOverlay mainConfig 800 600 1500 0 0 [] [0] [200]
        [⟨1, 2⟩] = [⟨1, 2⟩] := by
  refine ⟨by norm_num, ?_⟩
  exact overlay_guard_returns_prev mainConfig 800 600 1500 0 0 [] [0] [200]
    [⟨1, 2⟩] (by norm_num)

end Oscilloscope
